import Mathlib

/-!
Verification of the pendulum-and-mood simulation of the SEROTONYL site
(the setupLamp subsystem: pendulum physics, anxiety smoothing, beam
visibility, logo jitter, and the hum synthesizer start-up).  The
definitions below are shallow embeddings of the corresponding JavaScript
functions; JavaScript numbers are modelled as exact rationals (and as
reals where transcendental functions are involved).
-/

namespace Serotonyl

/-- Source utility: clamp(v, a, b) = Math.max(a, Math.min(b, v)). -/
def clamp (v a b : ℚ) : ℚ := max a (min b v)

/-- Source utility: lerp(a, b, t) = a + (b - a) * t. -/
def lerp (a b t : ℚ) : ℚ := a + (b - a) * t

/-- Source utility: smoothstep(a, b, x) with t = clamp((x-a)/(b-a), 0, 1). -/
def smoothstep (a b x : ℚ) : ℚ :=
  (clamp ((x - a) / (b - a)) 0 1) * (clamp ((x - a) / (b - a)) 0 1) *
    (3 - 2 * clamp ((x - a) / (b - a)) 0 1)

/-- Source constant MAX = 0.72 (pendulum amplitude bound, radians). -/
def MAX : ℚ := 72 / 100

/-- Source constant OMEGA_MAX = 3.6 (angular velocity bound). -/
def OMEGA_MAX : ℚ := 36 / 10

/-- One physics integration step of the non-grabbing branch of frame():
omega = clamp(omega + acc*dt, -OMEGA_MAX, OMEGA_MAX);
theta = clamp(theta + omega*dt, -MAX, MAX);
if (Math.abs(theta) > MAX - 1e-4) omega *= 0.78.
The angular acceleration acc (gravity, damping, breeze) and the incoming
omega (which may already include the unclamped pointer-proximity torque)
enter as parameters. -/
def physStep (theta omega acc dt : ℚ) : ℚ × ℚ :=
  let omega1 := clamp (omega + acc * dt) (-OMEGA_MAX) OMEGA_MAX
  let theta1 := clamp (theta + omega1 * dt) (-MAX) MAX
  let omega2 := if MAX - 1 / 10000 < |theta1| then omega1 * (78 / 100) else omega1
  (theta1, omega2)

/-- Anxiety target from frame(): clamp(0.10 + near*0.60 + speed*0.85 + spike*0.75, 0, 1). -/
def anxTarget (near speed spike : ℚ) : ℚ :=
  clamp (10 / 100 + near * (60 / 100) + speed * (85 / 100) + spike * (75 / 100)) 0 1

/-- The single per-frame mutation of state.anx:
state.anx = lerp(state.anx, anxTarget, 0.06). -/
def anxStep (anx near speed spike : ℚ) : ℚ :=
  lerp anx (anxTarget near speed spike) (6 / 100)

/-- Beam visibility core from frame(): given the projected distance along
the beam axis, the absolute perpendicular distance, the value of
Math.sin(t * (0.010 + anx * 0.010)) as the parameter flickerS, and the
blackout flag, compute vis.  tanHalf stands for Math.tan(BEAM_HALF_ANGLE)
and beamMax for scaledBeamMax. -/
def visCore (beamMax tanHalf along perp flickerS : ℚ) (blackout : Bool) : ℚ :=
  if 0 < along ∧ along < beamMax then
    (smoothstep 0 1 (1 - perp / (along * tanHalf + 1 / 1000000))) *
      (smoothstep 10 70 along) *
      (1 - smoothstep (beamMax - 100) beamMax along) *
      ((90 / 100 + 10 / 100 * flickerS) * (1 - if blackout then 92 / 100 else 0))
  else 0

/-- Beam visibility from a target position: vx,vy is the vector from the
beam apex to the target centre, along = vx*dirX + vy*dirY,
perp = Math.abs(vx*dirY - vy*dirX), then visCore. -/
def visFromTarget (beamMax tanHalf apexX apexY dirX dirY lx ly flickerS : ℚ)
    (blackout : Bool) : ℚ :=
  visCore beamMax tanHalf
    ((lx - apexX) * dirX + (ly - apexY) * dirY)
    (|(lx - apexX) * dirY - (ly - apexY) * dirX|)
    flickerS blackout

/-- Logo jitter outputs from frame(): if (vis > 0.05 and anx > 0.2 and not
blackout) emit ((random*2-1)*j, (random*2-1)*j) with j = anx*vis*1.8,
modelling each random*2-1 draw as a parameter; else exactly (0, 0). -/
def logoJitter (vis anx : ℚ) (blackout : Bool) (r1 r2 : ℚ) : ℚ × ℚ :=
  if 5 / 100 < vis ∧ 2 / 10 < anx ∧ blackout = false then
    (r1 * (anx * vis * (18 / 10)), r2 * (anx * vis * (18 / 10)))
  else (0, 0)

/-- The grab-start kick from the pointerdown handler:
omega += clamp((e.clientX - pivotX) / 140, -1, 1) * 0.75 (not clamped). -/
def grabKickOmega (omega pointerX pivotX : ℚ) : ℚ :=
  omega + clamp ((pointerX - pivotX) / 140) (-1) 1 * (75 / 100)

/-- The omega update of the pointermove handler while grabbing:
omega = clamp(lerp(omega, w, 0.85), -OMEGA_MAX, OMEGA_MAX). -/
def grabMoveOmega (omega w : ℚ) : ℚ :=
  clamp (lerp omega w (85 / 100)) (-OMEGA_MAX) OMEGA_MAX

/-- The omega update of endGrab():
omega = clamp(omega + wPtr * 0.28, -OMEGA_MAX, OMEGA_MAX);
omega = clamp(omega * 1.05, -OMEGA_MAX, OMEGA_MAX). -/
def endGrabOmega (omega wPtr : ℚ) : ℚ :=
  clamp (clamp (omega + wPtr * (28 / 100)) (-OMEGA_MAX) OMEGA_MAX * (105 / 100))
    (-OMEGA_MAX) OMEGA_MAX

/-- The audio graph built by ensureHum: one sine oscillator at 44 Hz with
hum gain 0.12 and one looped noise source with noise gain 0.03, counted so
that duplicate construction would be observable. -/
structure AudioGraph where
  oscCount : Nat
  noiseCount : Nat
  humFreq : ℚ
  humGainValue : ℚ
  noiseGainValue : ℚ
deriving DecidableEq, Repr

/-- The graph a successful ensureHum construction produces. -/
def builtGraph : AudioGraph :=
  { oscCount := 1, noiseCount := 1, humFreq := 44
    humGainValue := 12 / 100, noiseGainValue := 3 / 100 }

/-- The audio-relevant part of the shared mood state, plus a ghost counter
of how many times the construction try-block was entered. -/
structure SynthState where
  audioStarted : Bool
  audio : Option AudioGraph
  attempts : Nat
deriving DecidableEq, Repr

/-- Initial state: audioStarted = false, audio = null. -/
def initSynth : SynthState := { audioStarted := false, audio := none, attempts := 0 }

/-- ensureHum(): returns immediately if state.audioStarted; returns if no
AudioContext constructor is available; otherwise attempts construction in
a try block.  acAvailable models the capability probe, constructionOk
models whether the try-block body throws; a thrown exception is caught
before state.audioStarted or state.audio are written. -/
def ensureHum (acAvailable constructionOk : Bool) (s : SynthState) : SynthState :=
  if s.audioStarted then s
  else if acAvailable = false then s
  else if constructionOk then
    { audioStarted := true, audio := some builtGraph, attempts := s.attempts + 1 }
  else
    { s with attempts := s.attempts + 1 }

/-- JavaScript Math.atan2(y, x): angle of the point (x, y) in (-pi, pi],
with atan2(0, 0) = 0 as in JS for positive zeros. -/
noncomputable def atan2 (y x : ℝ) : ℝ :=
  if 0 < x then Real.arctan (y / x)
  else if x < 0 then
    (if 0 ≤ y then Real.arctan (y / x) + Real.pi else Real.arctan (y / x) - Real.pi)
  else
    (if 0 < y then Real.pi / 2 else if y < 0 then -(Real.pi / 2) else 0)

/-- clamp over the reals, for the angleFromPointer embedding. -/
noncomputable def clampR (v a b : ℝ) : ℝ := max a (min b v)

/-- The constant MAX = 0.72 as a real number. -/
noncomputable def MAXR : ℝ := 72 / 100

/-- angleFromPointer from setupLamp:
th = Math.atan2(Math.abs(dx), dy); s = dx === 0 ? 1 : Math.sign(dx);
return clamp(th * s, -MAX, MAX). -/
noncomputable def angleFromPointer (x y pivotX pivotY : ℝ) : ℝ :=
  clampR (atan2 |x - pivotX| (y - pivotY) *
      (if x - pivotX = 0 then 1 else if 0 < x - pivotX then 1 else -1))
    (-MAXR) MAXR

/-! ### Helper lemmas -/

theorem clampR_mem {a b : ℝ} (v : ℝ) (hab : a ≤ b) : a ≤ clampR v a b ∧ clampR v a b ≤ b := by
  unfold clampR
  exact ⟨le_max_left a (min b v), max_le hab (min_le_left b v)⟩

theorem clampR_of_le {a b v : ℝ} (hab : a ≤ b) (h : b ≤ v) : clampR v a b = b := by
  unfold clampR
  rw [min_eq_left h, max_eq_right hab]

theorem clampR_of_ge {a b v : ℝ} (hab : a ≤ b) (h : v ≤ a) : clampR v a b = a := by
  unfold clampR
  rw [min_eq_right (le_trans h hab), max_eq_left h]

theorem clampR_of_mem {a b v : ℝ} (h1 : a ≤ v) (h2 : v ≤ b) : clampR v a b = v := by
  unfold clampR
  rw [min_eq_right h2, max_eq_right h1]

theorem atan2_ge_pi_div_two {y x : ℝ} (hy : 0 < y) (hx : x ≤ 0) :
    Real.pi / 2 ≤ atan2 y x := by
  unfold atan2
  rcases lt_or_eq_of_le hx with hx' | hx'
  · rw [if_neg (by linarith), if_pos hx', if_pos (le_of_lt hy)]
    have h := Real.neg_pi_div_two_lt_arctan (y / x)
    linarith
  · rw [hx']
    rw [if_neg (by norm_num), if_neg (by norm_num), if_pos hy]

theorem pi_div_two_gt_MAXR : MAXR < Real.pi / 2 := by
  have h := Real.pi_gt_three
  unfold MAXR
  linarith

theorem clamp_mem {a b : ℚ} (v : ℚ) (hab : a ≤ b) : a ≤ clamp v a b ∧ clamp v a b ≤ b := by
  unfold clamp
  constructor
  · exact le_max_left a (min b v)
  · exact max_le hab (min_le_left b v)

theorem clamp_of_le {a b v : ℚ} (hab : a ≤ b) (h : b ≤ v) : clamp v a b = b := by
  unfold clamp
  rw [min_eq_left h, max_eq_right hab]

theorem clamp_of_ge {a b v : ℚ} (hab : a ≤ b) (h : v ≤ a) : clamp v a b = a := by
  unfold clamp
  rw [min_eq_right (le_trans h hab), max_eq_left h]

theorem physStep_omega_mem (theta omega acc dt : ℚ) :
    -OMEGA_MAX ≤ (physStep theta omega acc dt).2 ∧ (physStep theta omega acc dt).2 ≤ OMEGA_MAX := by
  unfold physStep
  have hb : (-OMEGA_MAX : ℚ) ≤ OMEGA_MAX := by norm_num [OMEGA_MAX]
  have h1 := clamp_mem (omega + acc * dt) hb
  simp only []
  split
  · constructor <;> nlinarith [h1.1, h1.2]
  · exact h1

theorem physStep_theta_mem (theta omega acc dt : ℚ) :
    -MAX ≤ (physStep theta omega acc dt).1 ∧ (physStep theta omega acc dt).1 ≤ MAX := by
  unfold physStep
  have hb : (-MAX : ℚ) ≤ MAX := by norm_num [MAX]
  exact clamp_mem _ hb

theorem smoothstep_eq_zero {a b x : ℚ} (hab : a < b) (h : x ≤ a) : smoothstep a b x = 0 := by
  unfold smoothstep
  have hle : (x - a) / (b - a) ≤ 0 :=
    div_nonpos_of_nonpos_of_nonneg (by linarith) (by linarith)
  rw [clamp_of_ge (by norm_num) hle]
  ring

/-! ### Idle-settle scenario: the frame physics with gravity-only forcing

frame() with grabbing = false, no pointer torque and breeze = 0 (the
scenario's gravity-only forcing), at a fixed 60 Hz timestep dt = 1/60:
acc = -10.4 * sin(theta) - 0.92 * omega, then the clamped integration and
the saturation bleed of physStep, over the reals. -/

/-- omega after the clamped integration step of frame() at dt = 1/60:
clamp(omega + (-10.4*sin(theta) - 0.92*omega)*dt, -OMEGA_MAX, OMEGA_MAX). -/
noncomputable def omega1R (p : ℝ × ℝ) : ℝ :=
  clampR (p.2 + (-(52/5) * Real.sin p.1 - (92/100) * p.2) * (1/60)) (-(36/10)) (36/10)

/-- theta after the clamped integration step of frame() at dt = 1/60. -/
noncomputable def theta1R (p : ℝ × ℝ) : ℝ :=
  clampR (p.1 + omega1R p * (1/60)) (-(72/100)) (72/100)

/-- One whole frame of the idle pendulum (integration plus saturation
bleed), the real-valued counterpart of physStep specialised to
acc = -10.4*sin(theta) - 0.92*omega and dt = 1/60. -/
noncomputable def frameStepR (p : ℝ × ℝ) : ℝ × ℝ :=
  (theta1R p,
   if (72/100 : ℝ) - 1/10000 < |theta1R p| then omega1R p * (78/100) else omega1R p)

/-- Certificate trajectory step: the linearised dynamics computed in
integers at scale 10^9 with floor rounding; a reference point that the
real trajectory is proven to track. -/
def stepC (p : ℤ × ℤ) : ℤ × ℤ :=
  (p.1 + Int.ediv (p.2 + Int.ediv (-260 * p.1 - 23 * p.2) 1500) 60,
   p.2 + Int.ediv (-260 * p.1 - 23 * p.2) 1500)

/-- Bounds check for a certificate state: |theta| ≤ 0.051 and
|omega| ≤ 0.167 at scale 10^9. -/
def boundsOK (p : ℤ × ℤ) : Bool :=
  decide (-51000000 ≤ p.1) && decide (p.1 ≤ 51000000) &&
    decide (-167000000 ≤ p.2) && decide (p.2 ≤ 167000000)

/-- checkTraj n p checks boundsOK on p, stepC p, ..., stepC^[n] p. -/
def checkTraj : ℕ → ℤ × ℤ → Bool
  | 0, p => boundsOK p
  | n + 1, p => boundsOK p && checkTraj n (stepC p)

/-- Lyapunov quadratic form for the damped discrete pendulum. -/
noncomputable def Qf (u v : ℝ) : ℝ :=
  (507/500) * u^2 + 2 * (91/2500) * u * v + (12/125) * v^2

theorem Qf_nonneg (u v : ℝ) : 0 ≤ Qf u v := by
  unfold Qf
  nlinarith [sq_nonneg ((507/500) * u + (91/2500) * v), sq_nonneg v]

theorem Qf_perturb (x y s t : ℝ) :
    Qf (x + s) (y + t) ≤ (201/200) * Qf x y + 201 * Qf s t := by
  have h := Qf_nonneg (x - 200 * s) (y - 200 * t)
  unfold Qf at h ⊢
  nlinarith [h]

theorem Qf_le_delta (s t : ℝ) (hs : |s| ≤ 11/10^8) (ht : |t| ≤ 6/10^6) :
    Qf s t ≤ 36/10^13 := by
  rw [abs_le] at hs ht
  unfold Qf
  nlinarith [mul_nonneg (by linarith [hs.1] : (0:ℝ) ≤ 11/10^8 + s)
      (by linarith [hs.2] : (0:ℝ) ≤ 11/10^8 - s),
    mul_nonneg (by linarith [ht.1] : (0:ℝ) ≤ 6/10^6 + t)
      (by linarith [ht.2] : (0:ℝ) ≤ 6/10^6 - t),
    mul_nonneg (by linarith [hs.1] : (0:ℝ) ≤ 11/10^8 + s)
      (by linarith [ht.2] : (0:ℝ) ≤ 6/10^6 - t),
    mul_nonneg (by linarith [hs.2] : (0:ℝ) ≤ 11/10^8 - s)
      (by linarith [ht.1] : (0:ℝ) ≤ 6/10^6 + t)]

theorem Qf_bounds (u v : ℝ) (h : Qf u v ≤ 9/10^8) :
    |u| ≤ 31/10^5 ∧ |v| ≤ 1/1000 := by
  unfold Qf at h
  have hu2 : u^2 ≤ (31/10^5)^2 := by
    nlinarith [sq_nonneg ((91/2500) * u + (12/125) * v)]
  have hv2 : v^2 ≤ (1/1000)^2 := by
    nlinarith [sq_nonneg ((507/500) * u + (91/2500) * v)]
  constructor
  · rw [abs_le]
    constructor <;> nlinarith [hu2, sq_nonneg (u + 31/10^5), sq_nonneg (u - 31/10^5)]
  · rw [abs_le]
    constructor <;> nlinarith [hv2, sq_nonneg (v + 1/1000), sq_nonneg (v - 1/1000)]

theorem Qf_contraction (k u v : ℝ) (hk1 : 997/1000 ≤ k) (hk2 : k ≤ 1) :
    Qf (u + ((1477/1500) * v - (13/75) * k * u) / 60) ((1477/1500) * v - (13/75) * k * u) ≤
      (616/625) * Qf u v := by
  have hkk : 0 ≤ (k - 997/1000) * (1 - k) :=
    mul_nonneg (by linarith) (by linarith)
  have hA : 0 < -4563/312500 + (6929/375000) * k - (3295331/1125000000) * k^2 := by
    nlinarith [hkk]
  have hD : 0 ≤ (-4563/312500 + (6929/375000) * k - (3295331/1125000000) * k^2) *
        (40286029/450000000000) -
      (-1245517/75000000 + (374400299/22500000000) * k)^2 := by
    nlinarith [hkk]
  have hexp : (616/625) * Qf u v -
      Qf (u + ((1477/1500) * v - (13/75) * k * u) / 60) ((1477/1500) * v - (13/75) * k * u) =
      (-4563/312500 + (6929/375000) * k - (3295331/1125000000) * k^2) * u^2 +
        2 * (-1245517/75000000 + (374400299/22500000000) * k) * u * v +
        (40286029/450000000000) * v^2 := by
    unfold Qf
    ring
  have hid : (-4563/312500 + (6929/375000) * k - (3295331/1125000000) * k^2) *
      ((-4563/312500 + (6929/375000) * k - (3295331/1125000000) * k^2) * u^2 +
        2 * (-1245517/75000000 + (374400299/22500000000) * k) * u * v +
        (40286029/450000000000) * v^2) =
      ((-4563/312500 + (6929/375000) * k - (3295331/1125000000) * k^2) * u +
          (-1245517/75000000 + (374400299/22500000000) * k) * v)^2 +
        ((-4563/312500 + (6929/375000) * k - (3295331/1125000000) * k^2) *
            (40286029/450000000000) -
          (-1245517/75000000 + (374400299/22500000000) * k)^2) * v^2 := by
    ring
  have hnn : 0 ≤ (-4563/312500 + (6929/375000) * k - (3295331/1125000000) * k^2) *
      ((-4563/312500 + (6929/375000) * k - (3295331/1125000000) * k^2) * u^2 +
        2 * (-1245517/75000000 + (374400299/22500000000) * k) * u * v +
        (40286029/450000000000) * v^2) := by
    rw [hid]
    have h1 := sq_nonneg ((-4563/312500 + (6929/375000) * k - (3295331/1125000000) * k^2) * u +
      (-1245517/75000000 + (374400299/22500000000) * k) * v)
    have h2 := mul_nonneg hD (sq_nonneg v)
    linarith
  have hfin := (mul_nonneg_iff_of_pos_left hA).mp hnn
  linarith [hexp, hfin]

theorem abs_sin_sub_le_cube_aux {x c : ℝ} (hx0 : 0 ≤ x) (hxc : x ≤ c) (hc : c ≤ 1) :
    |Real.sin x - x| ≤ c^3 / 4 := by
  have hc0 : 0 ≤ c := le_trans hx0 hxc
  have hc3 : 0 ≤ c^3 := by positivity
  rcases eq_or_lt_of_le hx0 with hz | hpos
  · rw [← hz]
    simpa using by positivity
  · have h1 := Real.sin_gt_sub_cube hpos (le_trans hxc hc)
    have h2 := Real.sin_lt hpos
    have hx3 : x^3 ≤ c^3 := pow_le_pow_left hx0 hxc 3
    rw [abs_le]
    constructor <;> linarith

theorem abs_sin_sub_le_cube {x c : ℝ} (hc : c ≤ 1) (hx : |x| ≤ c) :
    |Real.sin x - x| ≤ c^3 / 4 := by
  rcases le_total 0 x with hx0 | hx0
  · exact abs_sin_sub_le_cube_aux hx0 (by rwa [abs_of_nonneg hx0] at hx) hc
  · have h := abs_sin_sub_le_cube_aux (x := -x) (by linarith)
      (by rwa [abs_of_nonpos hx0] at hx) hc
    rw [Real.sin_neg] at h
    have heq : -Real.sin x - -x = -(Real.sin x - x) := by ring
    rwa [heq, abs_neg] at h

theorem sinc_bounds_pos {t : ℝ} (ht0 : 0 < t) (htb : t ≤ 6/100) :
    1 - 9/10000 ≤ Real.sin t / t ∧ Real.sin t / t ≤ 1 := by
  constructor
  · rw [le_div_iff ht0]
    have h1 := Real.sin_gt_sub_cube ht0 (by linarith)
    nlinarith [sq_nonneg t]
  · rw [div_le_one ht0]
    exact (Real.sin_lt ht0).le

theorem sinc_bounds {h : ℝ} (hne : h ≠ 0) (hb : |h| ≤ 6/100) :
    1 - 9/10000 ≤ Real.sin h / h ∧ Real.sin h / h ≤ 1 := by
  rcases lt_or_gt_of_ne hne with hneg | hpos
  · have hb' : -h ≤ 6/100 := by
      rw [abs_of_neg hneg] at hb
      exact hb
    have := sinc_bounds_pos (by linarith : (0:ℝ) < -h) hb'
    rwa [Real.sin_neg, neg_div_neg_eq] at this
  · exact sinc_bounds_pos hpos (by rwa [abs_of_pos hpos] at hb)

/-- The difference of sines at two small angles is a near-unit multiple of
the angle difference. -/
theorem sin_diff_decomp (A B : ℝ) (hA : |A| ≤ 6/100) (hB : |B| ≤ 6/100) :
    ∃ k : ℝ, Real.sin A - Real.sin B = k * (A - B) ∧ 997/1000 ≤ k ∧ k ≤ 1 := by
  rcases eq_or_ne A B with he | hne
  · exact ⟨1, by rw [he]; ring, by norm_num, le_rfl⟩
  · have hh : (A - B) / 2 ≠ 0 := by
      intro hcon
      apply hne
      have : A - B = 0 := by linarith [hcon]
      linarith
    have hhb : |(A - B) / 2| ≤ 6/100 := by
      rw [abs_div, abs_two]
      have := abs_sub_abs_le_abs_sub A B
      have h2 := abs_sub A B
      rw [abs_le] at hA hB
      rw [div_le_iff (by norm_num : (0:ℝ) < 2), abs_le]
      constructor <;> [skip; skip] <;> rw [abs_le] at *
      · linarith [hA.1, hB.2]
      · linarith [hA.2, hB.1]
    have hmb : |(A + B) / 2| ≤ 6/100 := by
      rw [abs_le] at hA hB ⊢
      constructor <;> [skip; skip]
      · have : -(6/100) + -(6/100) ≤ A + B := by linarith [hA.1, hB.1]
        linarith
      · have : A + B ≤ 6/100 + 6/100 := by linarith [hA.2, hB.2]
        linarith
    have hsinc := sinc_bounds hh hhb
    have hcos1 : 1 - 18/10000 ≤ Real.cos ((A + B) / 2) := by
      have h := Real.one_sub_sq_div_two_le_cos (x := (A + B) / 2)
      have hsq : ((A + B) / 2)^2 ≤ (6/100)^2 := by
        rw [abs_le] at hmb
        nlinarith [hmb.1, hmb.2]
      nlinarith
    have hcos2 : Real.cos ((A + B) / 2) ≤ 1 := Real.cos_le_one _
    refine ⟨(Real.sin ((A - B) / 2) / ((A - B) / 2)) * Real.cos ((A + B) / 2), ?_, ?_, ?_⟩
    · have key : Real.sin ((A - B) / 2) / ((A - B) / 2) * Real.cos ((A + B) / 2) * (A - B) =
          2 * Real.sin ((A - B) / 2) * Real.cos ((A + B) / 2) := by
        calc Real.sin ((A - B) / 2) / ((A - B) / 2) * Real.cos ((A + B) / 2) * (A - B)
            = Real.sin ((A - B) / 2) * ((A - B) / 2 / ((A - B) / 2)) *
                Real.cos ((A + B) / 2) * 2 := by
              ring
          _ = 2 * Real.sin ((A - B) / 2) * Real.cos ((A + B) / 2) := by
              rw [div_self hh]
              ring
      rw [Real.sin_sub_sin, key]
    · nlinarith [hsinc.1, hsinc.2, hcos1, hcos2]
    · have hs0 : 0 ≤ Real.sin ((A - B) / 2) / ((A - B) / 2) := by linarith [hsinc.1]
      have hc0 : 0 ≤ Real.cos ((A + B) / 2) := by linarith [hcos1]
      nlinarith [hsinc.2, hcos2, hs0, hc0]

/-- Integer floor division brackets the real quotient. -/
theorem ediv_real_bounds (a b : ℤ) (hb : 0 < b) :
    ((a.ediv b : ℤ) : ℝ) ≤ (a : ℝ) / (b : ℝ) ∧
      (a : ℝ) / (b : ℝ) - 1 < ((a.ediv b : ℤ) : ℝ) := by
  have h1 := Int.ediv_add_emod a b
  have h2 := Int.emod_nonneg a (ne_of_gt hb)
  have h3 := Int.emod_lt_of_pos a hb
  have hbR : (0:ℝ) < (b:ℝ) := by exact_mod_cast hb
  have h1R : (b:ℝ) * ((a.ediv b : ℤ) : ℝ) + ((a.emod b : ℤ) : ℝ) = (a : ℝ) := by
    exact_mod_cast h1
  have h2R : (0:ℝ) ≤ ((a.emod b : ℤ) : ℝ) := by exact_mod_cast h2
  have h3R : ((a.emod b : ℤ) : ℝ) < (b:ℝ) := by exact_mod_cast h3
  constructor
  · rw [le_div_iff hbR]
    nlinarith
  · rw [sub_lt_iff_lt_add, div_lt_iff hbR]
    nlinarith

/-- When the integrated values are small, the clamps of frameStepR are the
identity and the saturation bleed does not fire. -/
theorem frameStepR_small (θ ω : ℝ)
    (h1 : |ω + (-(52/5) * Real.sin θ - (92/100) * ω) * (1/60)| ≤ 1)
    (h2 : |θ + (ω + (-(52/5) * Real.sin θ - (92/100) * ω) * (1/60)) * (1/60)| ≤ 6/100) :
    frameStepR (θ, ω) =
      (θ + (ω + (-(52/5) * Real.sin θ - (92/100) * ω) * (1/60)) * (1/60),
       ω + (-(52/5) * Real.sin θ - (92/100) * ω) * (1/60)) := by
  have hw : omega1R (θ, ω) = ω + (-(52/5) * Real.sin θ - (92/100) * ω) * (1/60) := by
    show clampR (ω + (-(52/5) * Real.sin θ - (92/100) * ω) * (1/60)) (-(36/10)) (36/10) =
      ω + (-(52/5) * Real.sin θ - (92/100) * ω) * (1/60)
    have h := abs_le.mp h1
    exact clampR_of_mem (by linarith [h.1]) (by linarith [h.2])
  have hth : theta1R (θ, ω) =
      θ + (ω + (-(52/5) * Real.sin θ - (92/100) * ω) * (1/60)) * (1/60) := by
    show clampR ((θ, ω).1 + omega1R (θ, ω) * (1/60)) (-(72/100)) (72/100) = _
    rw [hw]
    have h := abs_le.mp h2
    exact clampR_of_mem (by linarith [h.1]) (by linarith [h.2])
  unfold frameStepR
  rw [hth, hw, if_neg]
  rw [not_lt]
  calc |θ + (ω + (-(52/5) * Real.sin θ - (92/100) * ω) * (1/60)) * (1/60)| ≤ 6/100 := h2
    _ ≤ (72/100 : ℝ) - 1/10000 := by norm_num

theorem checkTraj_head (n : ℕ) (p : ℤ × ℤ) (h : checkTraj n p = true) :
    boundsOK p = true := by
  cases n with
  | zero => simpa [checkTraj] using h
  | succ m =>
    have h' : (boundsOK p && checkTraj m (stepC p)) = true := h
    exact ((Bool.and_eq_true _ _).mp h').1

theorem checkTraj_tail (n : ℕ) (p : ℤ × ℤ) (h : checkTraj (n + 1) p = true) :
    checkTraj n (stepC p) = true := by
  have h' : (boundsOK p && checkTraj n (stepC p)) = true := h
  exact ((Bool.and_eq_true _ _).mp h').2

theorem boundsOK_spec (p : ℤ × ℤ) (h : boundsOK p = true) :
    -51000000 ≤ p.1 ∧ p.1 ≤ 51000000 ∧ -167000000 ≤ p.2 ∧ p.2 ≤ 167000000 := by
  unfold boundsOK at h
  simp only [Bool.and_eq_true, decide_eq_true_eq] at h
  exact ⟨h.1.1.1, h.1.1.2, h.1.2, h.2⟩

set_option maxHeartbeats 3200000 in
/-- One sound tracking step: if the real state is within the Lyapunov
ball of radius sqrt(9e-8) around a bounded certificate state, it remains
so after one frame (and the clamps and saturation bleed are inactive). -/
theorem stepSound (p : ℤ × ℤ) (x : ℝ × ℝ)
    (hb : boundsOK p = true) (hb2 : boundsOK (stepC p) = true)
    (hQ : Qf (x.1 - (p.1 : ℝ)/10^9) (x.2 - (p.2 : ℝ)/10^9) ≤ 9/10^8) :
    Qf ((frameStepR x).1 - ((stepC p).1 : ℝ)/10^9)
      ((frameStepR x).2 - ((stepC p).2 : ℝ)/10^9) ≤ 9/10^8 := by
  obtain ⟨th, om⟩ := p
  obtain ⟨θ, ω⟩ := x
  obtain ⟨hb1, hb2', hb3, hb4⟩ := boundsOK_spec _ hb
  dsimp only at hQ hb1 hb2' hb3 hb4 ⊢
  set q1 : ℤ := Int.ediv (-260 * th - 23 * om) 1500 with hq1def
  set om2 : ℤ := om + q1 with hom2def
  set q2 : ℤ := Int.ediv om2 60 with hq2def
  set th2 : ℤ := th + q2 with hth2def
  have hstep : stepC (th, om) = (th2, om2) := by
    simp only [stepC, hq1def, hom2def, hq2def, hth2def]
  rw [hstep] at hb2 ⊢
  obtain ⟨hc1, hc2, hc3, hc4⟩ := boundsOK_spec _ hb2
  dsimp only at hc1 hc2 hc3 hc4
  have hthR : |(th : ℝ)/10^9| ≤ 51/1000 := by
    have k1 : (-51000000 : ℝ) ≤ (th : ℝ) := by exact_mod_cast hb1
    have k2 : (th : ℝ) ≤ 51000000 := by exact_mod_cast hb2'
    rw [abs_le]
    constructor <;> linarith
  have homR : |(om : ℝ)/10^9| ≤ 167/1000 := by
    have k1 : (-167000000 : ℝ) ≤ (om : ℝ) := by exact_mod_cast hb3
    have k2 : (om : ℝ) ≤ 167000000 := by exact_mod_cast hb4
    rw [abs_le]
    constructor <;> linarith
  have hth2R : |(th2 : ℝ)/10^9| ≤ 51/1000 := by
    have k1 : (-51000000 : ℝ) ≤ (th2 : ℝ) := by exact_mod_cast hc1
    have k2 : (th2 : ℝ) ≤ 51000000 := by exact_mod_cast hc2
    rw [abs_le]
    constructor <;> linarith
  have hom2R : |(om2 : ℝ)/10^9| ≤ 167/1000 := by
    have k1 : (-167000000 : ℝ) ≤ (om2 : ℝ) := by exact_mod_cast hc3
    have k2 : (om2 : ℝ) ≤ 167000000 := by exact_mod_cast hc4
    rw [abs_le]
    constructor <;> linarith
  have hub := Qf_bounds (θ - (th : ℝ)/10^9) (ω - (om : ℝ)/10^9) hQ
  have hθb : |θ| ≤ 6/100 := by
    calc |θ| = |(θ - (th : ℝ)/10^9) + (th : ℝ)/10^9| := by ring_nf
      _ ≤ |θ - (th : ℝ)/10^9| + |(th : ℝ)/10^9| := abs_add _ _
      _ ≤ 31/10^5 + 51/1000 := add_le_add hub.1 hthR
      _ ≤ 6/100 := by norm_num
  have hthR6 : |(th : ℝ)/10^9| ≤ 6/100 := le_trans hthR (by norm_num)
  obtain ⟨k, hkEq, hk1, hk2⟩ := sin_diff_decomp θ ((th : ℝ)/10^9) hθb hthR6
  have hsc : |Real.sin ((th : ℝ)/10^9) - (th : ℝ)/10^9| ≤ (51/1000)^3/4 :=
    abs_sin_sub_le_cube (by norm_num) hthR
  obtain ⟨he1a, he1b⟩ := ediv_real_bounds (-260 * th - 23 * om) 1500 (by norm_num)
  rw [← hq1def] at he1a he1b
  push_cast at he1a he1b
  obtain ⟨he2a, he2b⟩ := ediv_real_bounds om2 60 (by norm_num)
  rw [← hq2def] at he2a he2b
  push_cast at he2a he2b
  set e1 : ℝ := -(52/300) * (Real.sin ((th : ℝ)/10^9) - (th : ℝ)/10^9) -
    ((q1 : ℝ) - (-260 * (th : ℝ) - 23 * (om : ℝ))/1500)/10^9 with he1def
  set r2 : ℝ := ((q2 : ℝ) - (om2 : ℝ)/60)/10^9 with hr2def
  have he1bnd : |e1| ≤ 6/10^6 := by
    have habs1 : |(-(52/300) : ℝ) * (Real.sin ((th : ℝ)/10^9) - (th : ℝ)/10^9)| ≤
        (52/300) * ((51/1000)^3/4) := by
      rw [abs_mul, abs_neg, abs_of_pos (by norm_num : (0:ℝ) < 52/300)]
      exact mul_le_mul_of_nonneg_left hsc (by norm_num)
    have habs2 : |((q1 : ℝ) - (-260 * (th : ℝ) - 23 * (om : ℝ))/1500)/10^9| ≤ 1/10^9 := by
      rw [abs_le]
      constructor <;> linarith
    rw [he1def]
    calc |(-(52/300) : ℝ) * (Real.sin ((th : ℝ)/10^9) - (th : ℝ)/10^9) -
          ((q1 : ℝ) - (-260 * (th : ℝ) - 23 * (om : ℝ))/1500)/10^9|
        = |(-(52/300) : ℝ) * (Real.sin ((th : ℝ)/10^9) - (th : ℝ)/10^9) +
            -(((q1 : ℝ) - (-260 * (th : ℝ) - 23 * (om : ℝ))/1500)/10^9)| := by
          rw [sub_eq_add_neg]
      _ ≤ |(-(52/300) : ℝ) * (Real.sin ((th : ℝ)/10^9) - (th : ℝ)/10^9)| +
            |-(((q1 : ℝ) - (-260 * (th : ℝ) - 23 * (om : ℝ))/1500)/10^9)| := abs_add _ _
      _ = |(-(52/300) : ℝ) * (Real.sin ((th : ℝ)/10^9) - (th : ℝ)/10^9)| +
            |((q1 : ℝ) - (-260 * (th : ℝ) - 23 * (om : ℝ))/1500)/10^9| := by rw [abs_neg]
      _ ≤ (52/300) * ((51/1000)^3/4) + 1/10^9 := add_le_add habs1 habs2
      _ ≤ 6/10^6 := by norm_num
  have hr2bnd : |r2| ≤ 1/10^9 := by
    rw [hr2def, abs_le]
    constructor <;> linarith
  have hsinθ : Real.sin θ = Real.sin ((th : ℝ)/10^9) + k * (θ - (th : ℝ)/10^9) := by
    linarith [hkEq]
  have hom2cast : (om2 : ℝ) = (om : ℝ) + (q1 : ℝ) := by
    rw [hom2def]
    push_cast
    ring
  have hth2cast : (th2 : ℝ) = (th : ℝ) + (q2 : ℝ) := by
    rw [hth2def]
    push_cast
    ring
  set ω1u : ℝ := ω + (-(52/5) * Real.sin θ - (92/100) * ω) * (1/60) with hω1udef
  set θ1u : ℝ := θ + ω1u * (1/60) with hθ1udef
  have hv' : ω1u - (om2 : ℝ)/10^9 =
      ((1477/1500) * (ω - (om : ℝ)/10^9) - (13/75) * k * (θ - (th : ℝ)/10^9)) + e1 := by
    rw [hω1udef, hsinθ, hom2cast, he1def]
    ring
  have hu' : θ1u - (th2 : ℝ)/10^9 =
      ((θ - (th : ℝ)/10^9) +
        ((1477/1500) * (ω - (om : ℝ)/10^9) - (13/75) * k * (θ - (th : ℝ)/10^9))/60) +
        (e1/60 - r2) := by
    have hω1u' : ω1u = (om2 : ℝ)/10^9 +
        (((1477/1500) * (ω - (om : ℝ)/10^9) - (13/75) * k * (θ - (th : ℝ)/10^9)) + e1) := by
      linarith [hv']
    rw [hθ1udef, hω1u', hth2cast, hr2def]
    ring
  have hs_bnd : |e1/60 - r2| ≤ 11/10^8 := by
    obtain ⟨h1a, h1b⟩ := abs_le.mp he1bnd
    obtain ⟨h2a, h2b⟩ := abs_le.mp hr2bnd
    rw [abs_le]
    constructor <;> linarith [h1a, h1b, h2a, h2b]
  have hQδ : Qf (e1/60 - r2) e1 ≤ 36/10^13 := Qf_le_delta _ _ hs_bnd he1bnd
  have hLin := Qf_contraction k (θ - (th : ℝ)/10^9) (ω - (om : ℝ)/10^9) hk1 hk2
  have hPer := Qf_perturb
    ((θ - (th : ℝ)/10^9) +
      ((1477/1500) * (ω - (om : ℝ)/10^9) - (13/75) * k * (θ - (th : ℝ)/10^9))/60)
    ((1477/1500) * (ω - (om : ℝ)/10^9) - (13/75) * k * (θ - (th : ℝ)/10^9))
    (e1/60 - r2) e1
  have hQnew : Qf (θ1u - (th2 : ℝ)/10^9) (ω1u - (om2 : ℝ)/10^9) ≤ 9/10^8 := by
    rw [hu', hv']
    have hm1 := mul_le_mul_of_nonneg_left hLin (by norm_num : (0:ℝ) ≤ 201/200)
    have hm2 := mul_le_mul_of_nonneg_left hQδ (by norm_num : (0:ℝ) ≤ 201)
    have hQle : Qf (θ - (th : ℝ)/10^9) (ω - (om : ℝ)/10^9) ≤ 9/10^8 := hQ
    linarith [hPer, hm1, hm2, hQle]
  obtain ⟨hu'b, hv'b⟩ := Qf_bounds _ _ hQnew
  have hω1usmall : |ω1u| ≤ 1 := by
    calc |ω1u| = |(ω1u - (om2 : ℝ)/10^9) + (om2 : ℝ)/10^9| := by ring_nf
      _ ≤ |ω1u - (om2 : ℝ)/10^9| + |(om2 : ℝ)/10^9| := abs_add _ _
      _ ≤ 1/1000 + 167/1000 := add_le_add hv'b hom2R
      _ ≤ 1 := by norm_num
  have hθ1usmall : |θ1u| ≤ 6/100 := by
    calc |θ1u| = |(θ1u - (th2 : ℝ)/10^9) + (th2 : ℝ)/10^9| := by ring_nf
      _ ≤ |θ1u - (th2 : ℝ)/10^9| + |(th2 : ℝ)/10^9| := abs_add _ _
      _ ≤ 31/10^5 + 51/1000 := add_le_add hu'b hth2R
      _ ≤ 6/100 := by norm_num
  rw [hω1udef] at hω1usmall
  rw [hθ1udef, hω1udef] at hθ1usmall
  have hF := frameStepR_small θ ω hω1usmall hθ1usmall
  rw [hF]
  dsimp only
  rw [← hω1udef, ← hθ1udef]
  exact hQnew

/-- The real trajectory stays within the Lyapunov ball around the
certificate trajectory for as long as the certificate bounds check. -/
theorem trajSound : ∀ (n : ℕ) (p : ℤ × ℤ) (x : ℝ × ℝ),
    checkTraj n p = true →
    Qf (x.1 - (p.1 : ℝ)/10^9) (x.2 - (p.2 : ℝ)/10^9) ≤ 9/10^8 →
    Qf ((frameStepR^[n] x).1 - ((stepC^[n] p).1 : ℝ)/10^9)
      ((frameStepR^[n] x).2 - ((stepC^[n] p).2 : ℝ)/10^9) ≤ 9/10^8 := by
  intro n
  induction n with
  | zero =>
    intro p x _ h
    simpa using h
  | succ n ih =>
    intro p x hc hQ
    rw [Function.iterate_succ_apply, Function.iterate_succ_apply]
    have hc2 := checkTraj_tail n p hc
    exact ih (stepC p) (frameStepR x) hc2
      (stepSound p x (checkTraj_head _ _ hc) (checkTraj_head _ _ hc2) hQ)

/-! ### Claim theorems -/

/-- Claim C2: after every physics integration step of the non-grabbing
branch, theta lies in [-MAX, MAX] and omega lies in
[-OMEGA_MAX, OMEGA_MAX], regardless of the magnitude of the
pointer-proximity torque (folded into the incoming omega) or the breeze
forcing (folded into acc); and when theta saturates at its bound
(|theta| > MAX - 1e-4) the resulting omega is exactly 78% of the clamped
integrated omega. -/
theorem C2_physStep_clamping (theta omega acc dt : ℚ) :
    (-MAX ≤ (physStep theta omega acc dt).1 ∧ (physStep theta omega acc dt).1 ≤ MAX) ∧
    (-OMEGA_MAX ≤ (physStep theta omega acc dt).2 ∧
      (physStep theta omega acc dt).2 ≤ OMEGA_MAX) ∧
    (MAX - 1 / 10000 < |(physStep theta omega acc dt).1| →
      (physStep theta omega acc dt).2 =
        (78 / 100) * clamp (omega + acc * dt) (-OMEGA_MAX) OMEGA_MAX) := by
  refine ⟨physStep_theta_mem theta omega acc dt, physStep_omega_mem theta omega acc dt, ?_⟩
  intro h
  simp only [physStep] at h ⊢
  rw [if_pos h]
  ring

/-- Claim C2 witness: a step that saturates theta at MAX bleeds omega to
78% of its clamped value. -/
theorem C2_witness :
    MAX - 1 / 10000 < |(physStep (7/10) 3 0 (1/60)).1| ∧
    (physStep (7/10) 3 0 (1/60)).2 =
      (78 / 100) * clamp (3 + 0 * (1/60)) (-OMEGA_MAX) OMEGA_MAX :=
  ⟨by rw [show (physStep (7/10) 3 0 (1/60)).1 = 18/25 by
        norm_num [physStep, clamp, MAX, OMEGA_MAX]]
      rw [show |(18/25 : ℚ)| = 18/25 from abs_of_pos (by norm_num)]
      norm_num [MAX],
    (C2_physStep_clamping (7/10) 3 0 (1/60)).2.2
      (by rw [show (physStep (7/10) 3 0 (1/60)).1 = 18/25 by
            norm_num [physStep, clamp, MAX, OMEGA_MAX]]
          rw [show |(18/25 : ℚ)| = 18/25 from abs_of_pos (by norm_num)]
          norm_num [MAX])⟩

/-- Claim C1: anxiety stays in [0,1] across every frame (a single
anxStep per frame, starting from the initial value 0); one smoothing
step preserves [0,1]; and when the anxiety target is pinned at 1 the
iterates increase monotonically and never exceed 1. -/
theorem C1_anxiety_invariant :
    (∀ a near speed spike : ℚ, 0 ≤ a → a ≤ 1 →
      0 ≤ anxStep a near speed spike ∧ anxStep a near speed spike ≤ 1) ∧
    (∀ frames : List (ℚ × ℚ × ℚ),
      0 ≤ frames.foldl (fun a p => anxStep a p.1 p.2.1 p.2.2) 0 ∧
      frames.foldl (fun a p => anxStep a p.1 p.2.1 p.2.2) 0 ≤ 1) ∧
    (∀ a near speed spike : ℚ, 0 ≤ a → a ≤ 1 → anxTarget near speed spike = 1 →
      ∀ m : ℕ,
        (fun x => anxStep x near speed spike)^[m] a ≤
          (fun x => anxStep x near speed spike)^[m + 1] a ∧
        (fun x => anxStep x near speed spike)^[m] a ≤ 1) := by
  have hT : ∀ n s k : ℚ, 0 ≤ anxTarget n s k ∧ anxTarget n s k ≤ 1 := by
    intro n s k
    exact clamp_mem _ (by norm_num)
  have hstep : ∀ a n s k : ℚ, 0 ≤ a → a ≤ 1 →
      0 ≤ anxStep a n s k ∧ anxStep a n s k ≤ 1 := by
    intro a n s k h0 h1
    have hk := hT n s k
    unfold anxStep lerp
    constructor <;> nlinarith [hk.1, hk.2]
  refine ⟨hstep, ?_, ?_⟩
  · intro frames
    suffices h : ∀ (l : List (ℚ × ℚ × ℚ)) (a : ℚ), 0 ≤ a → a ≤ 1 →
        0 ≤ l.foldl (fun a p => anxStep a p.1 p.2.1 p.2.2) a ∧
        l.foldl (fun a p => anxStep a p.1 p.2.1 p.2.2) a ≤ 1 by
      exact h frames 0 le_rfl (by norm_num)
    intro l
    induction l with
    | nil => intro a h0 h1; simpa using ⟨h0, h1⟩
    | cons p tl ih =>
      intro a h0 h1
      have hs := hstep a p.1 p.2.1 p.2.2 h0 h1
      simpa using ih _ hs.1 hs.2
  · intro a n s k h0 h1 hpin
    have hone : ∀ x : ℚ, x ≤ 1 → anxStep x n s k ≤ 1 := by
      intro x hx
      unfold anxStep lerp
      rw [hpin]
      linarith
    have hle1 : ∀ m : ℕ, (fun x => anxStep x n s k)^[m] a ≤ 1 := by
      intro m
      induction m with
      | zero => simpa using h1
      | succ m ih =>
        rw [Function.iterate_succ_apply']
        exact hone _ ih
    intro m
    refine ⟨?_, hle1 m⟩
    rw [Function.iterate_succ_apply']
    have hx := hle1 m
    have hformula : ∀ x : ℚ, anxStep x n s k = x + (1 - x) * (6/100) := by
      intro x
      unfold anxStep lerp
      rw [hpin]
    rw [hformula]
    linarith

/-- Claim C1 witness: one pinned-target step from 0 increases anxiety and
stays at most 1. -/
theorem C1_witness :
    (fun x => anxStep x 1 1 1)^[0] 0 ≤ (fun x => anxStep x 1 1 1)^[0 + 1] 0 ∧
    (fun x => anxStep x 1 1 1)^[0] 0 ≤ 1 :=
  C1_anxiety_invariant.2.2 0 1 1 1 le_rfl (by norm_num)
    (by norm_num [anxTarget, clamp]) 0

/-- Claim C6: the logo jitter outputs are the random draws scaled by
anx*vis*1.8 when vis > 0.05, anxiety > 0.2 and not blacked out, and are
exactly (0, 0) in every other case; in particular anxiety 0 with vis 1
gives exactly (0, 0). -/
theorem C6_logoJitter :
    (∀ (vis anx r1 r2 : ℚ) (b : Bool), ¬(5/100 < vis ∧ 2/10 < anx ∧ b = false) →
      logoJitter vis anx b r1 r2 = (0, 0)) ∧
    (∀ (r1 r2 : ℚ) (b : Bool), logoJitter 1 0 b r1 r2 = (0, 0)) ∧
    (∀ vis anx r1 r2 : ℚ, 5/100 < vis → 2/10 < anx →
      logoJitter vis anx false r1 r2 =
        (r1 * (anx * vis * (18/10)), r2 * (anx * vis * (18/10)))) := by
  refine ⟨?_, ?_, ?_⟩
  · intro vis anx r1 r2 b h
    unfold logoJitter
    rw [if_neg h]
  · intro r1 r2 b
    unfold logoJitter
    rw [if_neg]
    rintro ⟨-, h2, -⟩
    norm_num at h2
  · intro vis anx r1 r2 h1 h2
    unfold logoJitter
    rw [if_pos ⟨h1, h2, rfl⟩]

/-- Claim C6 witness: in the active branch the jitter equals the scaled
random draws. -/
theorem C6_witness :
    logoJitter 1 1 false 1 1 = (1 * (1 * 1 * (18/10)), 1 * (1 * 1 * (18/10))) :=
  C6_logoJitter.2.2 1 1 1 1 (by norm_num) (by norm_num)

/-- Claim C9: the grab-start kick can push omega at most 0.75 beyond
OMEGA_MAX (it is the one unclamped omega mutation), while every other
omega update in the embedding (pointer-move blend, release flick, and the
frame physics step) clamps its result into [-OMEGA_MAX, OMEGA_MAX]. -/
theorem C9_grab_kick :
    (∀ omega x p : ℚ, |omega| ≤ OMEGA_MAX →
      |grabKickOmega omega x p| ≤ OMEGA_MAX + 75/100) ∧
    (∀ omega w : ℚ, -OMEGA_MAX ≤ grabMoveOmega omega w ∧ grabMoveOmega omega w ≤ OMEGA_MAX) ∧
    (∀ omega w : ℚ, -OMEGA_MAX ≤ endGrabOmega omega w ∧ endGrabOmega omega w ≤ OMEGA_MAX) ∧
    (∀ theta omega acc dt : ℚ, -OMEGA_MAX ≤ (physStep theta omega acc dt).2 ∧
      (physStep theta omega acc dt).2 ≤ OMEGA_MAX) := by
  have hb : (-OMEGA_MAX : ℚ) ≤ OMEGA_MAX := by norm_num [OMEGA_MAX]
  refine ⟨?_, ?_, ?_, physStep_omega_mem⟩
  · intro omega x p h
    have hc := clamp_mem ((x - p) / 140) (show (-1 : ℚ) ≤ 1 by norm_num)
    rw [abs_le] at h ⊢
    unfold grabKickOmega
    constructor <;> nlinarith [hc.1, hc.2]
  · intro omega w
    exact clamp_mem _ hb
  · intro omega w
    exact clamp_mem _ hb

/-- Claim C9 witness: kicking at omega = OMEGA_MAX stays within
OMEGA_MAX + 0.75. -/
theorem C9_witness : |grabKickOmega (36/10) 200 0| ≤ OMEGA_MAX + 75/100 :=
  C9_grab_kick.1 (36/10) 200 0
    (by rw [show |(36/10 : ℚ)| = 36/10 from abs_of_pos (by norm_num)]
        norm_num [OMEGA_MAX])

/-- Claim C5: ensureHum is idempotent and total: a second call after a
successful one is the identity (no duplicate oscillators), it is the
identity when the audio subsystem is unavailable, and a caught
construction failure leaves audioStarted = false with the graph
unchanged. -/
theorem C5_ensureHum_idempotent :
    (∀ (a o : Bool) (s : SynthState), s.audioStarted = true → ensureHum a o s = s) ∧
    (∀ s : SynthState, s.audioStarted = false →
      (ensureHum true true s).audioStarted = true ∧
      (ensureHum true true s).audio = some builtGraph) ∧
    (∀ (a o : Bool) (s : SynthState),
      ensureHum a o (ensureHum true true s) = ensureHum true true s) ∧
    (∀ (o : Bool) (s : SynthState), ensureHum false o s = s) ∧
    (∀ s : SynthState, s.audioStarted = false →
      (ensureHum true false s).audioStarted = false ∧
      (ensureHum true false s).audio = s.audio) ∧
    ((ensureHum true true (ensureHum true true initSynth)).audio = some builtGraph ∧
      builtGraph.oscCount = 1) := by
  have hstart : ∀ (a o : Bool) (s : SynthState), s.audioStarted = true → ensureHum a o s = s := by
    intro a o s h
    unfold ensureHum
    rw [if_pos h]
  refine ⟨hstart, ?_, ?_, ?_, ?_, ?_⟩
  · intro s h
    unfold ensureHum
    rw [if_neg (by simp [h]), if_neg (by simp), if_pos rfl]
    exact ⟨rfl, rfl⟩
  · intro a o s
    by_cases h : s.audioStarted = true
    · rw [hstart true true s h, hstart a o s h]
    · have h' : s.audioStarted = false := by simpa using h
      have hres : (ensureHum true true s).audioStarted = true := by
        unfold ensureHum
        rw [if_neg (by simp [h']), if_neg (by simp), if_pos rfl]
      exact hstart a o _ hres
  · intro o s
    unfold ensureHum
    by_cases h : s.audioStarted = true
    · rw [if_pos h]
    · rw [if_neg h, if_pos rfl]
  · intro s h
    unfold ensureHum
    rw [if_neg (by simp [h]), if_neg (by simp), if_neg (by simp)]
    exact ⟨h, rfl⟩
  · constructor
    · have hres : (ensureHum true true initSynth).audioStarted = true := rfl
      rw [hstart true true _ hres]
      rfl
    · rfl

/-- Claim C5 witness: a successful first call from the initial state
starts the audio and builds the single-oscillator graph. -/
theorem C5_witness :
    (ensureHum true true initSynth).audioStarted = true ∧
    (ensureHum true true initSynth).audio = some builtGraph :=
  C5_ensureHum_idempotent.2.1 initSynth rfl

/-- Claim C4 counterexample: after a failed construction attempt
(attempts = 1, audioStarted = false), a second pointer-down gesture runs
construction again (attempts = 2) and can succeed (audioStarted = true),
so construction IS retried and the synthesizer does not stay in its
not-started state for the rest of the session. -/
theorem C4_counterexample :
    (ensureHum true false initSynth).audioStarted = false ∧
    (ensureHum true false initSynth).attempts = 1 ∧
    (ensureHum true true (ensureHum true false initSynth)).attempts = 2 ∧
    (ensureHum true true (ensureHum true false initSynth)).audioStarted = true := by
  decide

/-- Claim C4 (amended): after a caught construction failure the
synthesizer is left not started (audioStarted = false, graph unchanged,
one more attempt recorded), but only until the next pointer-down gesture:
ensureHum then re-enters the construction try-block, which may succeed. -/
theorem C4_failure_until_next_gesture (s : SynthState) (h : s.audioStarted = false) :
    (ensureHum true false s).audioStarted = false ∧
    (ensureHum true false s).audio = s.audio ∧
    (ensureHum true false s).attempts = s.attempts + 1 ∧
    (ensureHum true true (ensureHum true false s)).audioStarted = true := by
  unfold ensureHum
  rw [if_neg (by simp [h]), if_neg (by simp), if_neg (by simp)]
  refine ⟨h, rfl, rfl, ?_⟩
  rw [if_neg (by simp [h]), if_neg (by simp), if_pos rfl]

/-- Claim C4 witness: the amended behaviour at the initial state. -/
theorem C4_witness :
    (ensureHum true false initSynth).audioStarted = false ∧
    (ensureHum true false initSynth).audio = initSynth.audio ∧
    (ensureHum true false initSynth).attempts = initSynth.attempts + 1 ∧
    (ensureHum true true (ensureHum true false initSynth)).audioStarted = true :=
  C4_failure_until_next_gesture initSynth rfl

/-- Claim C3 counterexample: at perp exactly equal to along*tan(halfAngle)
(the claimed outside-cone boundary, here with tanHalf = 0.473 standing
for Math.tan(0.44)), the computed visibility is strictly positive, not 0:
the 1e-6 term in the edge denominator keeps the edge positive. -/
theorem C3_counterexample :
    200 * (473/1000 : ℚ) ≤ (473/5 : ℚ) ∧
    0 < visCore 520 (473/1000) 200 (473/5) 0 false := by
  constructor
  · norm_num
  · norm_num [visCore, smoothstep, clamp, min_def, max_def]

/-- Claim C3 (amended): visibility is exactly 0 whenever along ≤ 0 or
along ≥ beamMax; for the cone test, visibility is exactly 0 once
perp ≥ along*tan(halfAngle) + 1e-6 (the code divides perp by
maxPerp + 1e-6, so at perp = along*tan(halfAngle) it is still positive). -/
theorem C3_visCore_zero_outside (beamMax tanHalf along perp flickerS : ℚ) (b : Bool)
    (htan : 0 ≤ tanHalf)
    (h : along ≤ 0 ∨ beamMax ≤ along ∨ along * tanHalf + 1/1000000 ≤ perp) :
    visCore beamMax tanHalf along perp flickerS b = 0 := by
  unfold visCore
  split
  · rename_i hc
    rcases h with h | h | h
    · exact absurd hc.1 (by linarith)
    · exact absurd hc.2 (by linarith)
    · have hD : (0 : ℚ) < along * tanHalf + 1/1000000 := by
        have : (0 : ℚ) ≤ along * tanHalf := mul_nonneg (le_of_lt hc.1) htan
        linarith
      have hedge : 1 - perp / (along * tanHalf + 1/1000000) ≤ 0 := by
        have h1 : (1 : ℚ) ≤ perp / (along * tanHalf + 1/1000000) :=
          (one_le_div hD).mpr h
        linarith
      rw [smoothstep_eq_zero (by norm_num) hedge]
      ring
  · rfl

/-- Claim C3 witness: a target behind the apex (along ≤ 0) has
visibility exactly 0. -/
theorem C3_witness : visCore 520 (473/1000) (-5) 3 0 false = 0 :=
  C3_visCore_zero_outside 520 (473/1000) (-5) 3 0 false (by norm_num)
    (Or.inl (by norm_num))

/-- Claim C8: beam visibility is symmetric about the beam axis: two
targets with the same along projection and opposite signed perpendicular
offsets get identical visibility (the code only uses the absolute
perpendicular distance). -/
theorem C8_vis_symmetric
    (beamMax tanHalf apexX apexY dirX dirY lx1 ly1 lx2 ly2 flickerS : ℚ) (b : Bool)
    (halong : (lx1 - apexX) * dirX + (ly1 - apexY) * dirY =
      (lx2 - apexX) * dirX + (ly2 - apexY) * dirY)
    (hperp : (lx1 - apexX) * dirY - (ly1 - apexY) * dirX =
      -((lx2 - apexX) * dirY - (ly2 - apexY) * dirX)) :
    visFromTarget beamMax tanHalf apexX apexY dirX dirY lx1 ly1 flickerS b =
      visFromTarget beamMax tanHalf apexX apexY dirX dirY lx2 ly2 flickerS b := by
  unfold visFromTarget
  rw [halong, hperp, abs_neg]

/-- Claim C8 witness: mirrored targets at perpendicular offsets +3 and -3
from a straight-down beam have equal visibility. -/
theorem C8_witness :
    visFromTarget 520 (473/1000) 0 0 0 1 3 100 0 false =
      visFromTarget 520 (473/1000) 0 0 0 1 (-3) 100 0 false :=
  C8_vis_symmetric 520 (473/1000) 0 0 0 1 3 100 (-3) 100 0 false
    (by norm_num) (by norm_num)

/-- Claim C10: angleFromPointer always returns a value in [-MAX, MAX];
with the pointer at or above the pivot height (dy ≤ 0) and dx ≠ 0 it
saturates at sign(dx)*MAX; at the pivot exactly it returns 0; and
directly above the pivot (dx = 0, dy < 0) it returns +MAX. -/
theorem C10_angleFromPointer (x y pivotX pivotY : ℝ) :
    (-MAXR ≤ angleFromPointer x y pivotX pivotY ∧
      angleFromPointer x y pivotX pivotY ≤ MAXR) ∧
    (y - pivotY ≤ 0 → x - pivotX ≠ 0 →
      angleFromPointer x y pivotX pivotY = (if 0 < x - pivotX then MAXR else -MAXR)) ∧
    (x = pivotX → y = pivotY → angleFromPointer x y pivotX pivotY = 0) ∧
    (x - pivotX = 0 → y - pivotY < 0 → angleFromPointer x y pivotX pivotY = MAXR) := by
  have hMb : (-MAXR : ℝ) ≤ MAXR := by unfold MAXR; norm_num
  have hM0 : (0 : ℝ) ≤ MAXR := by unfold MAXR; norm_num
  have hpi : MAXR ≤ Real.pi := by
    have h := Real.pi_gt_three
    unfold MAXR
    linarith
  refine ⟨clampR_mem _ hMb, ?_, ?_, ?_⟩
  · intro hdy hdx
    unfold angleFromPointer
    have hth : Real.pi / 2 ≤ atan2 |x - pivotX| (y - pivotY) :=
      atan2_ge_pi_div_two (abs_pos.mpr hdx) hdy
    have hthM : MAXR ≤ atan2 |x - pivotX| (y - pivotY) :=
      le_trans (le_of_lt pi_div_two_gt_MAXR) hth
    rw [if_neg hdx]
    by_cases hpos : 0 < x - pivotX
    · rw [if_pos hpos, if_pos hpos, mul_one]
      exact clampR_of_le hMb hthM
    · rw [if_neg hpos, if_neg hpos]
      exact clampR_of_ge hMb (by linarith)
  · intro hx hy
    unfold angleFromPointer
    have hz : atan2 0 0 = 0 := by
      unfold atan2
      rw [if_neg (lt_irrefl 0), if_neg (lt_irrefl 0), if_neg (lt_irrefl 0),
        if_neg (lt_irrefl 0)]
    simp only [hx, hy, sub_self, abs_zero]
    rw [hz, if_pos trivial, mul_one]
    exact clampR_of_mem (by linarith) hM0
  · intro hdx hdy
    unfold angleFromPointer
    rw [hdx, abs_zero]
    have hval : atan2 0 (y - pivotY) = Real.pi := by
      unfold atan2
      rw [if_neg (by linarith), if_pos hdy, if_pos le_rfl, zero_div,
        Real.arctan_zero, zero_add]
    rw [hval, if_pos rfl, mul_one]
    exact clampR_of_le hMb hpi

/-- Claim C10 witness: a pointer level with the pivot on the right gives
+MAX, the pivot itself gives 0, and a pointer straight above gives +MAX. -/
theorem C10_witness :
    angleFromPointer 3 0 0 0 = (if (0 : ℝ) < 3 - 0 then MAXR else -MAXR) ∧
    angleFromPointer 0 0 0 0 = 0 ∧
    angleFromPointer 0 (-1) 0 0 = MAXR :=
  ⟨(C10_angleFromPointer 3 0 0 0).2.1 (by norm_num) (by norm_num),
   (C10_angleFromPointer 0 0 0 0).2.2.1 rfl rfl,
   (C10_angleFromPointer 0 (-1) 0 0).2.2.2 (by norm_num) (by norm_num)⟩

set_option maxRecDepth 8000 in
/-- Claim C7: starting from theta = 0.05 and omega = 0 with no pointer
input, simulating 300 frames (5 seconds at 60 Hz, dt = 1/60) of the
gravity-only non-grabbing physics ends with |theta| < 0.01 and
|omega| < 0.01. -/
theorem C7_idle_settle :
    |(frameStepR^[300] (1/20, 0)).1| < 1/100 ∧
    |(frameStepR^[300] (1/20, 0)).2| < 1/100 := by
  have hck : checkTraj 300 (50000000, 0) = true := by decide
  have hQ := trajSound 300 (50000000, 0) (1/20, 0) hck
    (by norm_num [Qf])
  have hy : (stepC^[300] ((50000000 : ℤ), (0 : ℤ))) = ((-4862258 : ℤ), (4978033 : ℤ)) := by
    decide
  rw [hy] at hQ
  push_cast at hQ
  obtain ⟨hu, hv⟩ := Qf_bounds _ _ hQ
  constructor
  · calc |(frameStepR^[300] ((1 : ℝ)/20, 0)).1|
        = |((frameStepR^[300] ((1 : ℝ)/20, 0)).1 - (-4862258)/10^9) + (-4862258)/10^9| := by
          ring_nf
      _ ≤ |(frameStepR^[300] ((1 : ℝ)/20, 0)).1 - (-4862258)/10^9| +
            |(-4862258 : ℝ)/10^9| := abs_add _ _
      _ ≤ 31/10^5 + 4862258/10^9 := by
          have habs : |(-4862258 : ℝ)/10^9| = 4862258/10^9 := by
            rw [show (-4862258 : ℝ)/10^9 = -(4862258/10^9) by ring, abs_neg,
              abs_of_pos (by norm_num : (0:ℝ) < 4862258/10^9)]
          exact add_le_add hu (le_of_eq habs)
      _ < 1/100 := by norm_num
  · calc |(frameStepR^[300] ((1 : ℝ)/20, 0)).2|
        = |((frameStepR^[300] ((1 : ℝ)/20, 0)).2 - 4978033/10^9) + 4978033/10^9| := by
          ring_nf
      _ ≤ |(frameStepR^[300] ((1 : ℝ)/20, 0)).2 - 4978033/10^9| +
            |(4978033 : ℝ)/10^9| := abs_add _ _
      _ ≤ 1/1000 + 4978033/10^9 := by
          have habs : |(4978033 : ℝ)/10^9| = 4978033/10^9 :=
            abs_of_pos (by norm_num : (0:ℝ) < 4978033/10^9)
          exact add_le_add hv (le_of_eq habs)
      _ < 1/100 := by norm_num

end Serotonyl
